import Mathlib

/-!
Verification of `tools/doc_combiner.py` (Logbie Framework Documentation
Combiner) against its natural-language specification.

The Python script is shallowly embedded below.  Conventions of the embedding:

* Python `str` is modelled by Lean `String` (a wrapper around `List Char`);
  the whitespace / lower-casing predicates are modelled on the ASCII range,
  which covers every input appearing in the theorems.
* File bytes are modelled as `List (Fin 256)`; the file system is a function
  `String → Option (List (Fin 256))` (`none` = the path does not exist).
* Python exceptions are modelled by `Except PyError`; each constructor of
  `PyError` corresponds to one exception class raised by the script.
* The wall-clock timestamp (`datetime.datetime.now()`) is nondeterministic
  input, so it is passed to `combine_markdown_files` as a parameter.
* Console output (`print`, `print_progress`) and `time.sleep` are pure side
  effects with no influence on the returned values, with one exception:
  `print_progress(current, total)` divides by `total`, so the final call
  `print_progress(len(files), len(files))` raises `ZeroDivisionError` when
  `files` is empty; the embedding of `combine_markdown_files` keeps that
  behaviour.
* The two regular expressions of the script, `^#\s+(.+)$` (MULTILINE) used
  by `get_file_title` and `^#\s+.+\n` (anchored, `count=1`) used to strip a
  duplicate leading heading, are embedded as specialised backtracking
  matchers (`searchHeading`, `reSubFirstHeading`) that implement exactly the
  leftmost-match, greedy-with-backtracking semantics of Python `re` for
  these two patterns.
-/

set_option maxRecDepth 100000

/-! ### Character and string helpers (Python built-ins) -/

/-- Python `\s` and `str.strip` whitespace, on the ASCII range:
space, tab, newline, carriage return, vertical tab, form feed. -/
def isPySpace (c : Char) : Bool :=
  c = ' ' || c = '\t' || c = '\n' || c = '\r' || c = '\x0b' || c = '\x0c'

/-- ASCII lower-casing of one character (model of Python `str.lower`). -/
def asciiLower (c : Char) : Char :=
  if 'A' ≤ c ∧ c ≤ 'Z' then Char.ofNat (c.toNat + 32) else c

/-- ASCII upper-casing of one character. -/
def asciiUpper (c : Char) : Char :=
  if 'a' ≤ c ∧ c ≤ 'z' then Char.ofNat (c.toNat - 32) else c

/-- ASCII letters: the cased characters of the ASCII range
(model of Python's notion of a cased character, used by `str.title`). -/
def isAsciiAlpha (c : Char) : Bool :=
  ('a' ≤ c && c ≤ 'z') || ('A' ≤ c && c ≤ 'Z')

/-- Python `str.lower` (ASCII model). -/
def pyLower (s : String) : String := ⟨s.data.map asciiLower⟩

/-- Python `str.lstrip()`. -/
def pyLstrip (s : String) : String := ⟨s.data.dropWhile isPySpace⟩

/-- Python `str.strip()`. -/
def pyStrip (s : String) : String :=
  ⟨((s.data.dropWhile isPySpace).reverse.dropWhile isPySpace).reverse⟩

/-- Python `str.replace(old, new)` for one-character `old` and `new`:
replaces every occurrence. -/
def pyReplaceChar (old new : Char) (s : String) : String :=
  ⟨s.data.map (fun c => if c = old then new else c)⟩

/-- Python `str.replace(old, '')` for one-character `old`:
removes every occurrence. -/
def pyRemoveChar (old : Char) (s : String) : String :=
  ⟨s.data.filter (fun c => c ≠ old)⟩

/-- Helper for `pyTitle`: the Boolean argument records whether the previous
character was cased.  Python `str.title` upper-cases a cased character that
follows a non-cased one and lower-cases a cased character that follows a
cased one. -/
def pyTitleAux : Bool → List Char → List Char
  | _, [] => []
  | prevCased, c :: rest =>
    if isAsciiAlpha c then
      (if prevCased then asciiLower c else asciiUpper c) :: pyTitleAux true rest
    else
      c :: pyTitleAux false rest

/-- Python `str.title()` (ASCII model). -/
def pyTitle (s : String) : String := ⟨pyTitleAux false s.data⟩

/-- Python `os.path.basename` for `/`-separated paths:
everything after the last `/`. -/
def basename (p : String) : String :=
  ⟨(p.data.reverse.takeWhile (fun c => c ≠ '/')).reverse⟩

/-- The stem of Python `os.path.splitext` applied to a basename: split at
the last dot, except that a dot preceded only by dots (e.g. `.bashrc`,
`..md`) does not start an extension. -/
def splitextBase (b : String) : String :=
  match b.data.reverse.dropWhile (fun c => c ≠ '.') with
  | [] => b
  | _ :: restRev => if restRev.any (fun c => c ≠ '.') then ⟨restRev.reverse⟩ else b

/-- Python `os.path.join(directory, file)` for a directory without a
trailing separator and a relative file name, as used by the script. -/
def pathJoin (dir name : String) : String := dir ++ "/" ++ name

/-- Lexicographic comparison of character lists by code point; this is the
order Python uses to compare `str` values. -/
def lexLe : List Char → List Char → Bool
  | [], _ => true
  | _ :: _, [] => false
  | a :: as, b :: bs =>
    if a.toNat < b.toNat then true
    else if b.toNat < a.toNat then false
    else lexLe as bs

/-- Python `str` comparison `a <= b`. -/
def strLe (a b : String) : Bool := lexLe a.data b.data

/-! ### Python exceptions -/

/-- The exception classes the script can raise, with their messages. -/
inductive PyError where
  /-- `FileNotFoundError` (missing directory or file). -/
  | fileNotFoundError (msg : String)
  /-- `TypeError`: `raise UnicodeDecodeError(f"...")` passes one argument to
  a constructor that requires five, so executing that `raise` statement
  itself raises `TypeError: function takes exactly 5 arguments (1 given)`. -/
  | typeError (msg : String)
  /-- `UnboundLocalError`: a local variable referenced before assignment. -/
  | unboundLocalError (msg : String)
  /-- `ZeroDivisionError` from `print_progress` when `total == 0`. -/
  | zeroDivisionError
  /-- A plain `Exception(...)` raised by the script's wrapping handlers. -/
  | exceptionErr (msg : String)
deriving DecidableEq, Repr

/-- Python `str(e)` for the exceptions above (the message text). -/
def pyStrMsg : PyError → String
  | .fileNotFoundError m => m
  | .typeError m => m
  | .unboundLocalError m => m
  | .zeroDivisionError => "float division by zero"
  | .exceptionErr m => m

instance instDecEqExcept {ε α : Type} [DecidableEq ε] [DecidableEq α] :
    DecidableEq (Except ε α)
  | .error e₁, .error e₂ =>
    if h : e₁ = e₂ then .isTrue (by rw [h])
    else .isFalse (by intro c; injection c; contradiction)
  | .error _, .ok _ => .isFalse (fun c => Except.noConfusion c)
  | .ok _, .error _ => .isFalse (fun c => Except.noConfusion c)
  | .ok a₁, .ok a₂ =>
    if h : a₁ = a₂ then .isTrue (by rw [h])
    else .isFalse (by intro c; injection c; contradiction)

/-! ### File bytes and text decoders -/

/-- One byte of a file. -/
abbrev PyByte := Fin 256

/-- The file system seen by the script: `none` means the path does not
exist. -/
abbrev FileSys := String → Option (List PyByte)

/-- Byte list of an ASCII string (for building concrete file systems). -/
def asciiBytes (s : String) : List PyByte :=
  s.data.map (fun c => (⟨c.toNat % 256, Nat.mod_lt _ (by decide)⟩ : PyByte))

/-- Is `b` a UTF-8 continuation byte (`0x80`–`0xBF`)? -/
def isUtf8Cont (b : PyByte) : Bool := 0x80 ≤ b.val && b.val ≤ 0xBF

/-- Strict UTF-8 decoding, as performed by Python's `utf-8` codec: rejects
invalid starters, truncated sequences, overlong encodings, surrogates and
code points above `U+10FFFF`. -/
def utf8Dec : List PyByte → Option (List Char)
  | [] => some []
  | b :: rest =>
    if b.val ≤ 0x7F then
      (utf8Dec rest).map (fun cs => Char.ofNat b.val :: cs)
    else
      match rest with
      | [] => none
      | b2 :: rest2 =>
        if 0xC2 ≤ b.val ∧ b.val ≤ 0xDF then
          if isUtf8Cont b2 then
            (utf8Dec rest2).map
              (fun cs => Char.ofNat ((b.val - 0xC0) * 0x40 + (b2.val - 0x80)) :: cs)
          else none
        else
          match rest2 with
          | [] => none
          | b3 :: rest3 =>
            if 0xE0 ≤ b.val ∧ b.val ≤ 0xEF then
              if isUtf8Cont b2 ∧ isUtf8Cont b3 then
                let cp := (b.val - 0xE0) * 0x1000 + (b2.val - 0x80) * 0x40 + (b3.val - 0x80)
                if 0x800 ≤ cp ∧ ¬ (0xD800 ≤ cp ∧ cp ≤ 0xDFFF) then
                  (utf8Dec rest3).map (fun cs => Char.ofNat cp :: cs)
                else none
              else none
            else
              match rest3 with
              | [] => none
              | b4 :: rest4 =>
                if 0xF0 ≤ b.val ∧ b.val ≤ 0xF4 then
                  if isUtf8Cont b2 ∧ isUtf8Cont b3 ∧ isUtf8Cont b4 then
                    let cp := (b.val - 0xF0) * 0x40000 + (b2.val - 0x80) * 0x1000 +
                      (b3.val - 0x80) * 0x40 + (b4.val - 0x80)
                    if 0x10000 ≤ cp ∧ cp ≤ 0x10FFFF then
                      (utf8Dec rest4).map (fun cs => Char.ofNat cp :: cs)
                    else none
                  else none
                else none

/-- The `latin-1` codec: every byte `b` decodes to code point `b`; it can
never fail. -/
def latin1Dec (bytes : List PyByte) : Option (List Char) :=
  some (bytes.map (fun b => Char.ofNat b.val))

/-- The `windows-1252` codec on the bytes `0x80`–`0x9F` (all other bytes
decode as in `latin-1`); the five bytes `0x81, 0x8D, 0x8F, 0x90, 0x9D` are
undefined in cp1252 and make the decode fail. -/
def cp1252Char (b : PyByte) : Option Char :=
  if b.val < 0x80 ∨ 0x9F < b.val then some (Char.ofNat b.val)
  else if b.val = 0x80 then some (Char.ofNat 0x20AC)
  else if b.val = 0x82 then some (Char.ofNat 0x201A)
  else if b.val = 0x83 then some (Char.ofNat 0x0192)
  else if b.val = 0x84 then some (Char.ofNat 0x201E)
  else if b.val = 0x85 then some (Char.ofNat 0x2026)
  else if b.val = 0x86 then some (Char.ofNat 0x2020)
  else if b.val = 0x87 then some (Char.ofNat 0x2021)
  else if b.val = 0x88 then some (Char.ofNat 0x02C6)
  else if b.val = 0x89 then some (Char.ofNat 0x2030)
  else if b.val = 0x8A then some (Char.ofNat 0x0160)
  else if b.val = 0x8B then some (Char.ofNat 0x2039)
  else if b.val = 0x8C then some (Char.ofNat 0x0152)
  else if b.val = 0x8E then some (Char.ofNat 0x017D)
  else if b.val = 0x91 then some (Char.ofNat 0x2018)
  else if b.val = 0x92 then some (Char.ofNat 0x2019)
  else if b.val = 0x93 then some (Char.ofNat 0x201C)
  else if b.val = 0x94 then some (Char.ofNat 0x201D)
  else if b.val = 0x95 then some (Char.ofNat 0x2022)
  else if b.val = 0x96 then some (Char.ofNat 0x2013)
  else if b.val = 0x97 then some (Char.ofNat 0x2014)
  else if b.val = 0x98 then some (Char.ofNat 0x02DC)
  else if b.val = 0x99 then some (Char.ofNat 0x2122)
  else if b.val = 0x9A then some (Char.ofNat 0x0161)
  else if b.val = 0x9B then some (Char.ofNat 0x203A)
  else if b.val = 0x9C then some (Char.ofNat 0x0153)
  else if b.val = 0x9E then some (Char.ofNat 0x017E)
  else if b.val = 0x9F then some (Char.ofNat 0x0178)
  else none

/-- The `windows-1252` codec. -/
def cp1252Dec (bytes : List PyByte) : Option (List Char) :=
  bytes.mapM cp1252Char

/-- The `ascii` codec: only bytes below `0x80` decode. -/
def asciiDec (bytes : List PyByte) : Option (List Char) :=
  if bytes.all (fun b => b.val ≤ 0x7F) then
    some (bytes.map (fun b => Char.ofNat b.val))
  else none

/-- The loop `for encoding in encodings:` of `read_file_content`: try each
decoder in turn, returning the first successful decode. -/
def tryFallbacks : List (List PyByte → Option (List Char)) → List PyByte → Option (List Char)
  | [], _ => none
  | d :: ds, bytes =>
    match d bytes with
    | some cs => some cs
    | none => tryFallbacks ds bytes

/-- The fallback list `encodings = ['latin-1', 'windows-1252', 'ascii']`. -/
def fallbackEncodings : List (List PyByte → Option (List Char)) :=
  [latin1Dec, cp1252Dec, asciiDec]

/-! ### The regex `^#\s+(.+)$` (re.MULTILINE) of `get_file_title`

`re.search` scans start positions from the left.  The anchor `^` restricts
candidate positions to offset 0 and positions just after a newline.  At a
candidate position holding `#`, the greedy `\s+` first consumes the whole
maximal whitespace run of length `w` after the `#` and backtracks to
shorter lengths `k`; for a given `k`, `(.+)` needs at least one
non-newline character right after the `k` whitespace characters, then
consumes greedily to the end of the line, where `$` (end of string or
before a newline) always succeeds.  Hence the match chooses the largest
`k ∈ [1, w]` such that the character after the first `k` whitespace
characters exists and is not a newline, and group 1 is the run of
non-newline characters from there.  Note `\s` matches newlines, so the
match (and the captured group) can extend past the line of the `#`. -/

/-- Largest `k` with `1 ≤ k ≤` (the `Nat` argument) such that `l` has a
character at index `k` and it is not a newline; the candidates are tried
from the largest down, exactly like the backtracking of the greedy
`\s+`. -/
def bestK (l : List Char) : Nat → Option Nat
  | 0 => none
  | Nat.succ k =>
    match l.drop (Nat.succ k) with
    | c :: _ => if c = '\n' then bestK l k else some (Nat.succ k)
    | [] => bestK l k

/-- Length of the whitespace run at the head of `l`. -/
def wsRun (l : List Char) : Nat := (l.takeWhile isPySpace).length

/-- Attempt to match `\s+(.+)$` against the characters after a `#` found at
an anchored position; returns group 1 on success. -/
def tryHeadingMatch (afterHash : List Char) : Option (List Char) :=
  match bestK afterHash (wsRun afterHash) with
  | some k => some ((afterHash.drop k).takeWhile (fun c => c ≠ '\n'))
  | none => none

/-- `re.search(r'^#\s+(.+)$', ·, re.MULTILINE)`: scan positions left to
right; the Boolean says whether the current position is at the start of a
line (start of string or just after a newline). -/
def searchHeading : Bool → List Char → Option (List Char)
  | _, [] => none
  | atStart, c :: rest =>
    if atStart && c = '#' then
      match tryHeadingMatch rest with
      | some g => some g
      | none => searchHeading (c = '\n') rest
    else searchHeading (c = '\n') rest

/-! ### The regex `^#\s+.+\n` (count=1, no MULTILINE) used to strip the
duplicate leading heading

Here `^` only matches at the start of the string and the pattern must end
with a literal newline.  Backtracking over the greedy `\s+` selects the
largest `k ∈ [1, w]` such that the character after the first `k`
whitespace characters exists, is not a newline, and a newline occurs
somewhere after it; the whole match then runs to (and includes) that
newline, and `re.sub(..., repl='', count=1)` deletes it. -/

/-- Backtracking for `^#\s+.+\n`: largest `k` with `1 ≤ k ≤` (the `Nat`
argument) such that `l` has a non-newline character at index `k` followed
eventually by a newline. -/
def bestKSub (l : List Char) : Nat → Option Nat
  | 0 => none
  | Nat.succ k =>
    match l.drop (Nat.succ k) with
    | c :: restAfter =>
      if c = '\n' then bestKSub l k
      else if restAfter.contains '\n' then some (Nat.succ k)
      else bestKSub l k
    | [] => bestKSub l k

/-- `re.sub(pattern=r'^#\s+.+\n', repl='', string=s, count=1)`: remove the
first heading line (everything up to and including its terminating
newline) if the pattern matches at the start of `s`; otherwise return `s`
unchanged. -/
def reSubFirstHeading (s : String) : String :=
  match s.data with
  | '#' :: afterHash =>
    match bestKSub afterHash (wsRun afterHash) with
    | some k => ⟨((afterHash.drop k).dropWhile (fun c => c ≠ '\n')).drop 1⟩
    | none => s
  | _ => s

/-! ### The script's functions -/

/-- `find_markdown_files(directory)`: fail with `FileNotFoundError` when
the directory does not exist; otherwise keep the entries whose lower-cased
name ends in `.md`, join them to the directory and sort (Python
`list.sort()`, i.e. a stable sort under `<=`; `entries` stands for
`os.listdir(directory)`, whose order is arbitrary). -/
def find_markdown_files (dirExists : Bool) (directory : String)
    (entries : List String) : Except PyError (List String) :=
  if dirExists then
    .ok (List.insertionSort (fun a b => strLe a b = true)
      ((entries.filter (fun f => ".md".data.isSuffixOf (pyLower f).data)).map
        (pathJoin directory)))
  else
    .error (.fileNotFoundError ("Directory not found: " ++ directory))

/-- `read_file_content(file_path)`: `FileNotFoundError` when the path does
not exist; otherwise decode as UTF-8, and on `UnicodeDecodeError` try
`latin-1`, `windows-1252`, `ascii` in order.  If the whole fallback loop
fell through, the statement `raise UnicodeDecodeError(f"...")` would

itself raise `TypeError` (one argument passed to a five-argument
constructor). -/
def decodeBytes (bytes : List PyByte) : Except PyError String :=
  match utf8Dec bytes with
  | some cs => .ok ⟨cs⟩
  | none =>
    match tryFallbacks fallbackEncodings bytes with
    | some cs => .ok ⟨cs⟩
    | none => .error (.typeError "function takes exactly 5 arguments (1 given)")

def read_file_content (fs : FileSys) (file_path : String) : Except PyError String :=
  match fs file_path with
  | none => .error (.fileNotFoundError ("File not found: " ++ file_path))
  | some bytes => decodeBytes bytes

/-- The fallback branch of `get_file_title`: strip the extension from the
basename, replace `-` and `_` by spaces, and `str.title()` the result. -/
def filenameTitle (file_path : String) : String :=
  pyTitle (pyReplaceChar '_' ' ' (pyReplaceChar '-' ' ' (splitextBase (basename file_path))))

/-- `get_file_title(file_path, content)`: the stripped group of the first
`^#\s+(.+)$` match, or the filename-derived title when there is none. -/
def get_file_title (file_path content : String) : String :=
  match searchHeading true content.data with
  | some g => pyStrip ⟨g⟩
  | none => filenameTitle file_path

/-- The anchor slug of a table-of-contents entry:
`title.lower().replace(' ', '-').replace('.', '').replace(':', '')`. -/
def slugOf (title : String) : String :=
  pyRemoveChar ':' (pyRemoveChar '.' (pyReplaceChar ' ' '-' (pyLower title)))

/-- One entry of the table-of-contents pre-pass (`i` is the 0-based index):
on any exception while reading, a placeholder entry is emitted instead. -/
def tocEntry (fs : FileSys) (i : Nat) (file_path : String) : String :=
  match read_file_content fs file_path with
  | .ok content =>
    let title := get_file_title file_path content
    toString (i + 1) ++ ". [" ++ title ++ "](#" ++ slugOf title ++ ")"
  | .error _ =>
    toString (i + 1) ++ ". [Error: " ++ basename file_path ++ "](#error-" ++
      toString (i + 1) ++ ")"

/-- The header fragments appended before the per-file sections: title line,
timestamp line, table-of-contents heading, joined table of contents and a
horizontal rule. -/
def combineHeader (timestamp : String) (fs : FileSys) (files : List String) :
    List String :=
  ["# Logbie Framework - Combined Documentation\n\n",
   "*Generated on: " ++ timestamp ++ "*\n\n",
   "## Table of Contents\n\n",
   String.intercalate "\n" (files.enum.map (fun p => tocEntry fs p.1 p.2)) ++ "\n\n",
   "---\n\n"]

/-- The body of the per-file loop of `combine_markdown_files`.  The state
is the accumulated fragment list together with the current value of the
local variable `filename` (`none` before its first assignment).  On
success seven fragments are appended; note the end marker is the literal
text `<!-- END: {filename} -->` because the source string lacks the
`f`-prefix.  On an exception, the handler reads `filename`: if it was
never assigned (the first file already failed) the handler itself raises
`UnboundLocalError`, which propagates; otherwise it appends an error
section naming whatever file `filename` last pointed to. -/
def processOne (fs : FileSys) (st : List String × Option String) (fp : String) :
    Except PyError (List String × Option String) :=
  match read_file_content fs fp with
  | .ok content =>
    let title := get_file_title fp content
    let filename := basename fp
    let body :=
      if "# ".data.isPrefixOf (pyLstrip content).data then
        reSubFirstHeading (pyLstrip content)
      else content
    .ok (st.1 ++
      ["<!-- BEGIN: " ++ filename ++ " -->\n\n",
       "# " ++ title ++ "\n\n",
       "*Source: `" ++ filename ++ "`*\n\n",
       pyStrip body,
       "\n\n",
       "<!-- END: \x7bfilename\x7d -->\n\n",
       "---\n\n"], some filename)
  | .error e =>
    match st.2 with
    | none =>
      .error (.unboundLocalError
        "cannot access local variable filename where it is not associated with a value")
    | some filename =>
      .ok (st.1 ++
        ["<!-- BEGIN: ERROR - " ++ filename ++ " -->\n\n",
         "# Error: Could not process " ++ filename ++ "\n\n",
         "Error details: " ++ pyStrMsg e ++ "\n\n",
         "<!-- END: ERROR - " ++ filename ++ " -->\n\n",
         "---\n\n"], some filename)

/-- `combine_markdown_files(files)` up to the final `"".join`: the list
`combined_content` of appended fragments.  After the loop the script calls
`print_progress(len(files), len(files))`, which divides by `len(files)`
and hence raises `ZeroDivisionError` for an empty list. -/
def combineFragments (timestamp : String) (fs : FileSys) (files : List String) :
    Except PyError (List String) :=
  match files.foldlM (processOne fs) (combineHeader timestamp fs files, none) with
  | .error e => .error e
  | .ok (frags, _) => if files.isEmpty then .error .zeroDivisionError else .ok frags

/-- `combine_markdown_files(files)`: the joined combined document. -/
def combine_markdown_files (timestamp : String) (fs : FileSys)
    (files : List String) : Except PyError String :=
  (combineFragments timestamp fs files).map String.join

/-! ### `main` and the process exit status -/

/-- The environment `main` runs in: whether creating/checking the output
directory succeeds, whether the `Docs` directory exists, its entries, the
file contents, whether the final write succeeds, and the timestamp. -/
structure MainEnv where
  outputDirOk : Bool
  docsDirExists : Bool
  entries : List String
  fs : FileSys
  writeOk : Bool
  timestamp : String

/-- What a run of `main()` returns and whether an output file was
created.  `ret = none` models the bare `return` of the "no files found"
branch (Python returns `None`). -/
structure MainResult where
  ret : Option Nat
  wrote : Bool
deriving Repr

/-- The sorted Markdown files `main` discovers (empty when discovery
fails). -/
def mdFiles (env : MainEnv) : List String :=
  match find_markdown_files env.docsDirExists "Docs" env.entries with
  | .ok l => l
  | .error _ => []

/-- `main()` (named `pyMain` because `main` is reserved in Lean): ensure
the output directory, discover, early-exit on zero files, combine, write;
any exception reaching the top-level handler makes it return 1, and a
successful run returns 0. -/
def pyMain (env : MainEnv) : MainResult :=
  if env.outputDirOk then
    match find_markdown_files env.docsDirExists "Docs" env.entries with
    | .error _ => ⟨some 1, false⟩
    | .ok files =>
      if files.isEmpty then ⟨none, false⟩
      else
        match combine_markdown_files env.timestamp env.fs files with
        | .error _ => ⟨some 1, false⟩
        | .ok _ => if env.writeOk then ⟨some 0, true⟩ else ⟨some 1, false⟩
  else ⟨some 1, false⟩

/-- `sys.exit(main())`: `sys.exit(None)` exits with status 0 and
`sys.exit(n)` with status `n`. -/
def sysExit (r : MainResult) : Nat := r.ret.getD 0

/-! ### Spec-side definitions

These definitions follow the wording of the specification (not the code);
they are used to state the claims and to compare against the embedding. -/

/-- Number of occurrences of `needle` as a substring of `s` (counting
start positions). -/
def countSub (needle s : String) : Nat :=
  (s.data.tails.filter (fun t => needle.data.isPrefixOf t)).length

/-- The lines of a text, splitting at every newline (the spec speaks of
"a line beginning with a single `#` marker followed by whitespace"). -/
def splitNl : List Char → List (List Char)
  | [] => [[]]
  | c :: rest =>
    if c = '\n' then [] :: splitNl rest
    else
      match splitNl rest with
      | ln :: lns => (c :: ln) :: lns
      | [] => [[c]]

/-- The lines of a string. -/
def linesOf (s : String) : List (List Char) := splitNl s.data

/-- The spec's "line beginning with a single `#` followed by whitespace":
the line starts with `#`, the next character of the line is whitespace,
and the `#` is single (not followed by another `#`, which is subsumed by
the whitespace requirement). -/
def specHeadingLine (ln : List Char) : Bool :=
  match ln with
  | '#' :: c :: _ => isPySpace c
  | _ => false

/-- ASCII punctuation (the characters `string.punctuation`):
`!` through `/`, `:` through `@`, `[` through `` ` ``, and `{` through
`~`. -/
def isAsciiPunct (c : Char) : Bool :=
  (33 ≤ c.toNat && c.toNat ≤ 47) || (58 ≤ c.toNat && c.toNat ≤ 64) ||
    (91 ≤ c.toNat && c.toNat ≤ 96) || (123 ≤ c.toNat && c.toNat ≤ 126)

/-- The slug as the spec describes it: lowercased title, spaces to
hyphens, punctuation stripped (keeping the hyphens the previous step just
introduced). -/
def specSlug (title : String) : String :=
  ⟨((pyReplaceChar ' ' '-' (pyLower title)).data.filter
    (fun c => !(isAsciiPunct c) || c = '-'))⟩

/-- The slug as the code computes it, described: lowercased title, spaces
to hyphens, periods and colons removed (all other punctuation kept).  Used
by the amended claim C6. -/
def specSlugAmended (title : String) : String :=
  ⟨((pyReplaceChar ' ' '-' (pyLower title)).data.filter
    (fun c => !(c = '.' || c = ':')))⟩

/-! ### Concrete file systems used by the claim evaluations -/

/-- One file `Docs/intro.md` with body `# Title\n\nBody text.`. -/
def fsC1 : FileSys := fun p =>
  if p = "Docs/intro.md" then some (asciiBytes "# Title\n\nBody text.") else none

/-- `Docs/b.md` readable, `Docs/a.md` absent (vanished between discovery
and reading). -/
def fsC2a : FileSys := fun p =>
  if p = "Docs/b.md" then some (asciiBytes "hi") else none

/-- `Docs/a.md` readable, `Docs/b.md` absent. -/
def fsC2b : FileSys := fun p =>
  if p = "Docs/a.md" then some (asciiBytes "hi") else none

/-! ### Claims -/

/-- Claim C1 (code bug).  For the single input file `Docs/intro.md` whose
body is `# Title\n\nBody text.`, the combined output has exactly one begin
marker naming `intro.md`, the heading `# Title` exactly once (the
duplicate leading heading of the body was removed), the body
`Body text.` — but **no** end marker naming the file: the end-marker
string in the source lacks its `f`-prefix, so every section ends with the
literal text `<!-- END: {filename} -->` instead of the filename.  The
first conjunct lists the exact fragment sequence the combiner produces;
the remaining conjuncts count the markers in the joined document. -/
theorem C1_end_marker_literal :
    combineFragments "2025-01-01 00:00:00" fsC1 ["Docs/intro.md"] = .ok
      ["# Logbie Framework - Combined Documentation\n\n",
       "*Generated on: 2025-01-01 00:00:00*\n\n",
       "## Table of Contents\n\n",
       "1. [Title](#title)\n\n",
       "---\n\n",
       "<!-- BEGIN: intro.md -->\n\n",
       "# Title\n\n",
       "*Source: `intro.md`*\n\n",
       "Body text.",
       "\n\n",
       "<!-- END: \x7bfilename\x7d -->\n\n",
       "---\n\n"] ∧
    ∀ out, combine_markdown_files "2025-01-01 00:00:00" fsC1 ["Docs/intro.md"] = .ok out →
      countSub "<!-- BEGIN: intro.md -->" out = 1 ∧
      countSub "<!-- END: intro.md -->" out = 0 ∧
      countSub "<!-- END: \x7bfilename\x7d -->" out = 1 ∧
      countSub "# Title" out = 1 ∧
      countSub "Body text." out = 1 := by
  refine ⟨by decide, ?_⟩
  intro out h
  have : out = String.join
      ["# Logbie Framework - Combined Documentation\n\n",
       "*Generated on: 2025-01-01 00:00:00*\n\n",
       "## Table of Contents\n\n",
       "1. [Title](#title)\n\n",
       "---\n\n",
       "<!-- BEGIN: intro.md -->\n\n",
       "# Title\n\n",
       "*Source: `intro.md`*\n\n",
       "Body text.",
       "\n\n",
       "<!-- END: \x7bfilename\x7d -->\n\n",
       "---\n\n"] := by
    have h' : combine_markdown_files "2025-01-01 00:00:00" fsC1 ["Docs/intro.md"] = .ok
        (String.join
          ["# Logbie Framework - Combined Documentation\n\n",
           "*Generated on: 2025-01-01 00:00:00*\n\n",
           "## Table of Contents\n\n",
           "1. [Title](#title)\n\n",
           "---\n\n",
           "<!-- BEGIN: intro.md -->\n\n",
           "# Title\n\n",
           "*Source: `intro.md`*\n\n",
           "Body text.",
           "\n\n",
           "<!-- END: \x7bfilename\x7d -->\n\n",
           "---\n\n"]) := by decide
    rw [h'] at h
    exact (Except.ok.inj h).symm
  subst this
  decide

/-- Claim C2 (code bug).  The per-file `except` handler references the
local variable `filename`, which is assigned only *after* the fallible
read: (1) when the **first** file fails to read, the handler raises
`UnboundLocalError` and the whole combine run aborts — no inline error
section, no further files; (2) when a **later** file fails, the inline
error section names the *previous* file (`a.md` below), not the failing
one (`Docs/b.md`). -/
theorem C2_error_handler_unbound_local :
    combineFragments "TS" fsC2a ["Docs/a.md", "Docs/b.md"] = .error
      (.unboundLocalError
        "cannot access local variable filename where it is not associated with a value") ∧
    combineFragments "TS" fsC2b ["Docs/a.md", "Docs/b.md"] = .ok
      ["# Logbie Framework - Combined Documentation\n\n",
       "*Generated on: TS*\n\n",
       "## Table of Contents\n\n",
       "1. [A](#a)\n2. [Error: b.md](#error-2)\n\n",
       "---\n\n",
       "<!-- BEGIN: a.md -->\n\n",
       "# A\n\n",
       "*Source: `a.md`*\n\n",
       "hi",
       "\n\n",
       "<!-- END: \x7bfilename\x7d -->\n\n",
       "---\n\n",
       "<!-- BEGIN: ERROR - a.md -->\n\n",
       "# Error: Could not process a.md\n\n",
       "Error details: File not found: Docs/b.md\n\n",
       "<!-- END: ERROR - a.md -->\n\n",
       "---\n\n"] := by
  constructor <;> decide

/-! ### Lemmas about the heading-search regex -/

/-- Whether a position after scanning `l` (starting from flag `b`) is at
the start of a line: the flag `searchHeading` carries. -/
def lastFlag (b : Bool) : List Char → Bool
  | [] => b
  | c :: l => lastFlag (decide (c = '\n')) l

theorem searchHeading_append_of_no_hash (l : List Char) :
    ∀ (b : Bool) (r : List Char), (∀ c ∈ l, c ≠ '#') →
      searchHeading b (l ++ r) = searchHeading (lastFlag b l) r := by
  induction l with
  | nil => intro b r _; rfl
  | cons c l ih =>
    intro b r h
    have hc : c ≠ '#' := h c (List.mem_cons_self c l)
    show searchHeading b (c :: (l ++ r)) = _
    rw [searchHeading]
    simp only [hc, decide_False, decide_eq_false hc, Bool.and_false, if_false]
    exact ih _ _ (fun d hd => h d (List.mem_cons_of_mem c hd))

theorem lastFlag_of_getLast (l : List Char) :
    ∀ (b : Bool), l.getLast? = some '\n' → lastFlag b l = true := by
  induction l with
  | nil => intro b h; cases h
  | cons c l ih =>
    intro b h
    cases l with
    | nil =>
      simp [List.getLast?] at h
      subst h
      simp [lastFlag]
    | cons d l' =>
      rw [List.getLast?_cons_cons] at h
      show lastFlag (decide (c = '\n')) (d :: l') = true
      exact ih _ h

theorem wsRun_append_stop (tws : List Char) (c₀ : Char) (rest : List Char)
    (hall : ∀ c ∈ tws, isPySpace c = true) (hc₀ : isPySpace c₀ = false) :
    wsRun (tws ++ c₀ :: rest) = tws.length := by
  induction tws with
  | nil => simp [wsRun, List.takeWhile_cons, hc₀]
  | cons c tws ih =>
    have hc : isPySpace c = true := hall c (List.mem_cons_self c tws)
    have ih' := ih (fun d hd => hall d (List.mem_cons_of_mem c hd))
    simp only [List.cons_append, wsRun, List.takeWhile_cons, hc, if_true,
      List.length_cons]
    simpa [wsRun] using ih'

theorem takeWhile_all_append_stop (p : Char → Bool) (l : List Char) (x : Char)
    (r : List Char) (hall : ∀ c ∈ l, p c = true) (hx : p x = false) :
    (l ++ x :: r).takeWhile p = l := by
  induction l with
  | nil => simp [List.takeWhile_cons, hx]
  | cons c l ih =>
    have hc : p c = true := hall c (List.mem_cons_self c l)
    simp only [List.cons_append, List.takeWhile_cons, hc, if_true]
    rw [ih (fun d hd => hall d (List.mem_cons_of_mem c hd))]

theorem tryHeadingMatch_eval (title post : List Char)
    (hnl : ∀ c ∈ title, c ≠ '\n')
    (hne : title.dropWhile isPySpace ≠ []) :
    tryHeadingMatch (' ' :: (title ++ '\n' :: post)) =
      some (title.dropWhile isPySpace) := by
  obtain ⟨c₀, rest', hrest⟩ : ∃ c₀ rest', title.dropWhile isPySpace = c₀ :: rest' := by
    cases h : title.dropWhile isPySpace with
    | nil => exact absurd h hne
    | cons a b => exact ⟨a, b, rfl⟩
  have hc₀ws : isPySpace c₀ = false := by
    have := List.head?_dropWhile_not isPySpace title
    rw [hrest] at this
    simpa using this
  have htws : ∀ c ∈ title.takeWhile isPySpace, isPySpace c = true :=
    fun c hc => List.mem_takeWhile_imp hc
  have hsplit : title = title.takeWhile isPySpace ++ c₀ :: rest' := by
    conv_lhs => rw [← List.takeWhile_append_dropWhile isPySpace title]
    rw [hrest]
  have hc₀mem : c₀ ∈ title := by
    rw [hsplit]
    exact List.mem_append_right _ (List.mem_cons_self _ _)
  have hc₀nl : c₀ ≠ '\n' := hnl c₀ hc₀mem
  have hl : ' ' :: (title ++ '\n' :: post) =
      (' ' :: title.takeWhile isPySpace) ++ ((c₀ :: rest') ++ '\n' :: post) := by
    conv_lhs => rw [hsplit]
    simp
  have hws : wsRun (' ' :: (title ++ '\n' :: post)) =
      (title.takeWhile isPySpace).length + 1 := by
    rw [hl]
    have : (' ' :: title.takeWhile isPySpace) ++ ((c₀ :: rest') ++ '\n' :: post) =
        (' ' :: title.takeWhile isPySpace) ++ c₀ :: (rest' ++ '\n' :: post) := by simp
    rw [this]
    have hall : ∀ c ∈ ' ' :: title.takeWhile isPySpace, isPySpace c = true := by
      intro c hc
      rcases List.mem_cons.mp hc with h | h
      · subst h; decide
      · exact htws c h
    simpa using wsRun_append_stop _ c₀ _ hall hc₀ws
  have hdrop : (' ' :: (title ++ '\n' :: post)).drop
      ((title.takeWhile isPySpace).length + 1) = (c₀ :: rest') ++ '\n' :: post := by
    rw [hl]
    have hlen : (' ' :: title.takeWhile isPySpace).length =
        (title.takeWhile isPySpace).length + 1 := by simp
    rw [← hlen, List.drop_left]
  unfold tryHeadingMatch
  rw [hws]
  have hbk : bestK (' ' :: (title ++ '\n' :: post))
      ((title.takeWhile isPySpace).length + 1) =
      some ((title.takeWhile isPySpace).length + 1) := by
    show bestK _ (Nat.succ (title.takeWhile isPySpace).length) = _
    rw [bestK]
    have : (' ' :: (title ++ '\n' :: post)).drop
        (Nat.succ (title.takeWhile isPySpace).length) = c₀ :: (rest' ++ '\n' :: post) := by
      simpa using hdrop
    rw [this]
    simp [hc₀nl]
  rw [hbk]
  show some (((' ' :: (title ++ '\n' :: post)).drop
      ((title.takeWhile isPySpace).length + 1)).takeWhile (fun c => decide (c ≠ '\n'))) =
    some (title.dropWhile isPySpace)
  rw [hdrop, hrest]
  congr 1
  have hallne : ∀ c ∈ c₀ :: rest', (fun c => decide (c ≠ '\n')) c = true := by
    intro c hc
    have : c ∈ title := by rw [hsplit]; exact List.mem_append_right _ hc
    simp [hnl c this]
  have := takeWhile_all_append_stop (fun c => decide (c ≠ '\n')) (c₀ :: rest') '\n'
    post hallne (by simp)
  simpa using this

theorem pyStrip_dropWhile (l : List Char) :
    pyStrip ⟨l.dropWhile isPySpace⟩ = pyStrip ⟨l⟩ := by
  simp [pyStrip, List.dropWhile_idempotent]

/-! ### Lemmas: when the heading regex finds nothing -/

/-- Drop everything up to and including the first newline. -/
def skipLine : List Char → List Char
  | [] => []
  | c :: rest => if c = '\n' then rest else skipLine rest

/-- A line is harmless for the heading regex when, if it begins with `#`,
a non-whitespace character immediately follows the `#`.  (Lines beginning
with `#` followed by whitespace, and lines consisting of `#` alone, are
the ones the regex can match from.) -/
def hashLineOk (ln : List Char) : Bool :=
  match ln with
  | '#' :: c :: _ => !(isPySpace c)
  | ['#'] => false
  | _ => true

theorem searchHeading_false_eq (l : List Char) :
    searchHeading false l = searchHeading true (skipLine l) := by
  induction l with
  | nil => rfl
  | cons c rest ih =>
    show searchHeading false (c :: rest) = _
    rw [searchHeading, Bool.false_and, if_neg Bool.false_ne_true]
    by_cases hc : c = '\n'
    · subst hc
      rw [show (decide (('\n' : Char) = '\n')) = true by decide]
      rw [show skipLine ('\n' :: rest) = rest by rw [skipLine]; simp]
    · rw [decide_eq_false hc]
      rw [show skipLine (c :: rest) = skipLine rest by rw [skipLine]; simp [hc]]
      exact ih

theorem skipLine_length_le (l : List Char) : (skipLine l).length ≤ l.length := by
  induction l with
  | nil => exact Nat.le_refl _
  | cons c rest ih =>
    rw [skipLine]
    by_cases hc : c = '\n'
    · simp [hc]
    · simp only [hc, if_false, List.length_cons]
      exact Nat.le_succ_of_le ih

theorem splitNl_head (l : List Char) :
    ∃ lns, splitNl l = (l.takeWhile (fun c => c ≠ '\n')) :: lns := by
  induction l with
  | nil => exact ⟨[], rfl⟩
  | cons c rest ih =>
    by_cases hc : c = '\n'
    · subst hc
      refine ⟨splitNl rest, ?_⟩
      rw [splitNl]
      simp [List.takeWhile_cons]
    · obtain ⟨lns, hlns⟩ := ih
      refine ⟨lns, ?_⟩
      rw [splitNl]
      simp only [hc, if_false, hlns, List.takeWhile_cons]
      simp [hc]

theorem splitNl_skipLine (l : List Char) :
    splitNl (skipLine l) = (splitNl l).tail ∨ splitNl (skipLine l) = [[]] := by
  induction l with
  | nil => exact Or.inr rfl
  | cons c rest ih =>
    by_cases hc : c = '\n'
    · subst hc
      left
      show splitNl rest = _
      rw [splitNl]
      simp
    · have hskip : skipLine (c :: rest) = skipLine rest := by rw [skipLine]; simp [hc]
      have htail : (splitNl (c :: rest)).tail = (splitNl rest).tail := by
        obtain ⟨lns, hlns⟩ := splitNl_head rest
        rw [splitNl]
        simp only [hc, if_false, hlns]
        rfl
      rw [hskip, htail]
      exact ih

theorem searchHeading_none_of_ok_lines :
    ∀ (n : Nat) (l : List Char), l.length ≤ n →
      (∀ ln ∈ splitNl l, hashLineOk ln = true) → searchHeading true l = none := by
  intro n
  induction n with
  | zero =>
    intro l hl _
    have : l = [] := List.eq_nil_of_length_eq_zero (Nat.le_zero.mp hl)
    subst this
    rfl
  | succ n ih =>
    intro l hl hlines
    cases l with
    | nil => rfl
    | cons c rest =>
      have hrestlen : rest.length ≤ n := by simpa using hl
      have htailok : ∀ ln ∈ splitNl (skipLine (c :: rest)), hashLineOk ln = true := by
        intro ln hln
        rcases splitNl_skipLine (c :: rest) with h | h
        · exact hlines ln (List.mem_of_mem_tail (h ▸ hln))
        · rw [h] at hln
          simp at hln
          subst hln
          rfl
      by_cases hcnl : c = '\n'
      · subst hcnl
        show searchHeading true ('\n' :: rest) = none
        rw [searchHeading]
        rw [show (true && decide (('\n' : Char) = '#')) = false by decide]
        rw [if_neg Bool.false_ne_true]
        rw [show (decide (('\n' : Char) = '\n')) = true by decide]
        refine ih rest hrestlen ?_
        intro ln hln
        refine hlines ln ?_
        rw [splitNl]
        simp only [if_pos rfl]
        exact List.mem_cons_of_mem _ hln
      · by_cases hch : c = '#'
        · subst hch
          obtain ⟨lns, hlns⟩ := splitNl_head ('#' :: rest)
          have hfirst : hashLineOk (('#' :: rest).takeWhile (fun c => c ≠ '\n')) = true :=
            hlines _ (hlns ▸ List.mem_cons_self _ _)
          rw [List.takeWhile_cons] at hfirst
          rw [show (decide (('#' : Char) ≠ '\n')) = true by decide] at hfirst
          rw [if_pos rfl] at hfirst
          obtain ⟨c₁, rest₁, hrest₁, hc₁⟩ :
              ∃ c₁ rest₁, rest = c₁ :: rest₁ ∧ isPySpace c₁ = false := by
            cases hr : rest with
            | nil =>
              rw [hr] at hfirst
              simp [hashLineOk] at hfirst
            | cons c₁ rest₁ =>
              rw [hr, List.takeWhile_cons] at hfirst
              by_cases hc₁nl : c₁ = '\n'
              · rw [show (decide (c₁ ≠ '\n')) = false by simp [hc₁nl], if_neg
                  Bool.false_ne_true] at hfirst
                simp [hashLineOk] at hfirst
              · rw [show (decide (c₁ ≠ '\n')) = true by simp [hc₁nl], if_pos rfl] at hfirst
                rw [hashLineOk] at hfirst
                exact ⟨c₁, rest₁, rfl, by simpa using hfirst⟩
          show searchHeading true ('#' :: rest) = none
          rw [searchHeading]
          rw [show (true && decide (('#' : Char) = '#')) = true by decide]
          rw [if_pos rfl]
          have hmatch : tryHeadingMatch rest = none := by
            rw [hrest₁]
            unfold tryHeadingMatch wsRun
            rw [List.takeWhile_cons, hc₁]
            rw [if_neg Bool.false_ne_true]
            rfl
          rw [hmatch]
          show searchHeading (decide (('#' : Char) = '\n')) rest = none
          rw [show (decide (('#' : Char) = '\n')) = false by decide]
          rw [searchHeading_false_eq]
          have h1 : skipLine ('#' :: rest) = skipLine rest := by
            rw [skipLine]; simp
          have hlen : (skipLine rest).length ≤ n :=
            Nat.le_trans (skipLine_length_le rest) hrestlen
          exact ih _ hlen (h1 ▸ htailok)
        · show searchHeading true (c :: rest) = none
          rw [searchHeading]
          rw [Bool.true_and, decide_eq_false hch, if_neg Bool.false_ne_true]
          rw [decide_eq_false hcnl]
          rw [searchHeading_false_eq]
          have h1 : skipLine (c :: rest) = skipLine rest := by
            rw [skipLine]; simp [hcnl]
          have hlen : (skipLine rest).length ≤ n :=
            Nat.le_trans (skipLine_length_le rest) hrestlen
          exact ih _ hlen (h1 ▸ htailok)

/-- Claim C3 (corrected), counterexample.  In the text
`"#\nX\n# Hello World\n"` the only line beginning with `#` followed by
whitespace is `# Hello World`, whose trimmed remainder is `Hello World`;
but `get_file_title` returns `"X"`: the `\s+` of `^#\s+(.+)$` matches the
newline after the bare `#` of the first line, so the match starts at that
`#` and captures the following line `X`. -/
theorem C3_cross_line_counterexample :
    (linesOf "#\nX\n# Hello World\n").filter specHeadingLine =
      [['#', ' ', 'H', 'e', 'l', 'l', 'o', ' ', 'W', 'o', 'r', 'l', 'd']] ∧
    pyStrip ⟨['#', ' ', 'H', 'e', 'l', 'l', 'o', ' ', 'W', 'o', 'r', 'l', 'd'].drop 1⟩ =
      "Hello World" ∧
    get_file_title "Docs/doc.md" "#\nX\n# Hello World\n" = "X" ∧
    ("X" : String) ≠ "Hello World" := by
  refine ⟨by decide, by decide, by decide, by decide⟩

/-- Claim C3 (amended).  When the first `#` of the text opens a genuine
heading line — the text is `pre ++ "# " ++ title ++ "\n" ++ post` where
`pre` contains no `#` and is empty or ends with a newline, and `title`
contains no newline and at least one non-whitespace character —
`get_file_title` returns the trimmed `title`. -/
theorem C3_first_heading_title (fname pre title post : String)
    (hpre : ∀ c ∈ pre.data, c ≠ '#')
    (hpreEnd : pre.data = [] ∨ pre.data.getLast? = some '\n')
    (hnl : ∀ c ∈ title.data, c ≠ '\n')
    (hne : title.data.dropWhile isPySpace ≠ []) :
    get_file_title fname (pre ++ "# " ++ title ++ "\n" ++ post) = pyStrip title := by
  have hdata : (pre ++ "# " ++ title ++ "\n" ++ post).data =
      pre.data ++ ('#' :: ' ' :: (title.data ++ '\n' :: post.data)) := by
    rw [String.data_append, String.data_append, String.data_append, String.data_append]
    rw [show ("# " : String).data = ['#', ' '] from rfl]
    rw [show ("\n" : String).data = ['\n'] from rfl]
    simp [List.append_assoc]
  have hflag : lastFlag true pre.data = true := by
    rcases hpreEnd with h | h
    · rw [h]; rfl
    · exact lastFlag_of_getLast _ _ h
  have hsearch : searchHeading true (pre ++ "# " ++ title ++ "\n" ++ post).data =
      some (title.data.dropWhile isPySpace) := by
    rw [hdata]
    rw [searchHeading_append_of_no_hash pre.data true _ hpre, hflag]
    rw [searchHeading]
    rw [show (true && decide (('#' : Char) = '#')) = true by decide]
    rw [if_pos rfl]
    rw [tryHeadingMatch_eval title.data post.data hnl hne]
  unfold get_file_title
  rw [hsearch]
  exact pyStrip_dropWhile title.data

/-- Witness for C3: a heading `# Hello World` preceded by a harmless line
yields the title `Hello World`. -/
theorem C3_first_heading_title_witness :
    get_file_title "Docs/doc.md" "intro text\n# Hello World\nmore" = "Hello World" := by
  have h := C3_first_heading_title "Docs/doc.md" "intro text\n" "Hello World" "more"
    (by decide) (by decide) (by decide) (by decide)
  rw [show ("intro text\n" ++ "# " ++ "Hello World" ++ "\n" ++ "more" : String) =
    "intro text\n# Hello World\nmore" from by decide] at h
  rw [h]
  decide

/-- Claim C4 (corrected), counterexample.  The text `"#\nfoo"` has no line
beginning with `#` followed by whitespace (its lines are `#` and `foo`),
yet for the filename `my-notes_v2.md` the title is not the
filename-derived `My Notes V2`: the regex matches across the newline after
the bare `#` and returns `foo`. -/
theorem C4_bare_hash_counterexample :
    (linesOf "#\nfoo").all (fun ln => !(specHeadingLine ln)) = true ∧
    get_file_title "Docs/my-notes_v2.md" "#\nfoo" = "foo" ∧
    filenameTitle "Docs/my-notes_v2.md" = "My Notes V2" ∧
    ("foo" : String) ≠ "My Notes V2" := by
  refine ⟨by decide, by decide, by decide, by decide⟩

/-- Claim C4 (amended).  For every text in which each line beginning with
`#` has a non-whitespace character immediately after the `#` (this
excludes, beyond the lines of the original claim, only lines consisting of
a bare `#`), `get_file_title` falls back to the filename-derived title:
extension stripped, hyphens and underscores replaced by spaces, words
title-cased. -/
theorem C4_filename_fallback (fp content : String)
    (h : ∀ ln ∈ linesOf content, hashLineOk ln = true) :
    get_file_title fp content = filenameTitle fp := by
  unfold get_file_title
  rw [searchHeading_none_of_ok_lines content.data.length content.data (Nat.le_refl _) h]

/-- Witness for C4: filename `my-notes_v2.md` yields `My Notes V2` when
the content has no heading. -/
theorem C4_filename_fallback_witness :
    (∀ ln ∈ linesOf "plain text\nno heading", hashLineOk ln = true) ∧
    get_file_title "Docs/my-notes_v2.md" "plain text\nno heading" = "My Notes V2" := by
  refine ⟨by decide, ?_⟩
  rw [C4_filename_fallback "Docs/my-notes_v2.md" "plain text\nno heading" (by decide)]
  decide

/-! ### Order lemmas for the path sort -/

theorem lexLe_total : ∀ a b : List Char, lexLe a b = true ∨ lexLe b a = true := by
  intro a
  induction a with
  | nil => intro b; left; rfl
  | cons x xs ih =>
    intro b
    cases b with
    | nil => right; rfl
    | cons y ys =>
      rcases Nat.lt_trichotomy x.toNat y.toNat with h | h | h
      · left; rw [lexLe, if_pos h]
      · have h1 : ¬ x.toNat < y.toNat := by omega
        have h2 : ¬ y.toNat < x.toNat := by omega
        rcases ih ys with hh | hh
        · left; rw [lexLe, if_neg h1, if_neg h2]; exact hh
        · right; rw [lexLe, if_neg h2, if_neg h1]; exact hh
      · right; rw [lexLe, if_pos h]

theorem lexLe_trans : ∀ a b c : List Char,
    lexLe a b = true → lexLe b c = true → lexLe a c = true := by
  intro a
  induction a with
  | nil => intro b c _ _; rfl
  | cons x xs ih =>
    intro b c hab hbc
    cases b with
    | nil => rw [lexLe] at hab; exact Bool.noConfusion hab
    | cons y ys =>
      cases c with
      | nil => rw [lexLe] at hbc; exact Bool.noConfusion hbc
      | cons z zs =>
        rw [lexLe] at hab hbc ⊢
        by_cases hxy : x.toNat < y.toNat
        · by_cases hyz : y.toNat < z.toNat
          · rw [if_pos (Nat.lt_trans hxy hyz)]
          · by_cases hzy : z.toNat < y.toNat
            · rw [if_neg hyz, if_pos hzy] at hbc; exact Bool.noConfusion hbc
            · rw [if_pos (by omega : x.toNat < z.toNat)]
        · by_cases hyx : y.toNat < x.toNat
          · rw [if_neg hxy, if_pos hyx] at hab; exact Bool.noConfusion hab
          · rw [if_neg hxy, if_neg hyx] at hab
            by_cases hyz : y.toNat < z.toNat
            · rw [if_pos (by omega : x.toNat < z.toNat)]
            · by_cases hzy : z.toNat < y.toNat
              · rw [if_neg hyz, if_pos hzy] at hbc; exact Bool.noConfusion hbc
              · rw [if_neg hyz, if_neg hzy] at hbc
                rw [if_neg (by omega : ¬ x.toNat < z.toNat),
                  if_neg (by omega : ¬ z.toNat < x.toNat)]
                exact ih ys zs hab hbc

instance : IsTotal String (fun a b => strLe a b = true) :=
  ⟨fun a b => lexLe_total a.data b.data⟩

instance : IsTrans String (fun a b => strLe a b = true) :=
  ⟨fun a b c => lexLe_trans a.data b.data c.data⟩

/-- Claim C5 (confirmed).  For a missing directory, discovery fails with
`FileNotFoundError`; for an existing one it returns exactly as many paths
as there are entries whose name ends in `.md` case-insensitively, sorted
lexicographically (pairwise `strLe`, the code-point order Python sorts
strings by). -/
theorem C5_discovery (directory : String) (entries : List String) :
    find_markdown_files false directory entries =
      .error (.fileNotFoundError ("Directory not found: " ++ directory)) ∧
    ∀ l, find_markdown_files true directory entries = .ok l →
      l.length =
        (entries.filter (fun f => ".md".data.isSuffixOf (pyLower f).data)).length ∧
      l.Pairwise (fun a b => strLe a b = true) := by
  constructor
  · rfl
  · intro l hl
    unfold find_markdown_files at hl
    rw [if_pos rfl] at hl
    have hl' := (Except.ok.inj hl).symm
    subst hl'
    constructor
    · rw [(List.perm_insertionSort _ _).length_eq, List.length_map]
    · exact List.sorted_insertionSort _ _

/-- Witness for C5: a directory with three Markdown entries (one with an
upper-case extension) and one other file yields the three joined paths in
sorted order. -/
theorem C5_discovery_witness :
    (["Docs/A.MD", "Docs/a.md", "Docs/b.md"] : List String).length =
      ((["b.md", "A.MD", "x.txt", "a.md"] : List String).filter
        (fun f => ".md".data.isSuffixOf (pyLower f).data)).length ∧
    (["Docs/A.MD", "Docs/a.md", "Docs/b.md"] : List String).Pairwise
      (fun a b => strLe a b = true) :=
  (C5_discovery "Docs" ["b.md", "A.MD", "x.txt", "a.md"]).2
    ["Docs/A.MD", "Docs/a.md", "Docs/b.md"] (by decide)

/-! ### The slug claim -/

/-- The file used by the C6 counterexample. -/
def fsC6 : FileSys := fun p =>
  if p = "Docs/hw.md" then some (asciiBytes "# Hello, World\n\nx") else none

/-- Claim C6 (corrected), counterexample.  For the title `Hello, World`
the code's anchor slug is `hello,-world` — the comma (punctuation) stays —
while the spec's "punctuation stripped" slug would be `hello-world`.  The
first conjunct shows the full combiner emitting the comma in the
table-of-contents anchor. -/
theorem C6_slug_counterexample :
    combineFragments "TS" fsC6 ["Docs/hw.md"] = .ok
      ["# Logbie Framework - Combined Documentation\n\n",
       "*Generated on: TS*\n\n",
       "## Table of Contents\n\n",
       "1. [Hello, World](#hello,-world)\n\n",
       "---\n\n",
       "<!-- BEGIN: hw.md -->\n\n",
       "# Hello, World\n\n",
       "*Source: `hw.md`*\n\n",
       "x",
       "\n\n",
       "<!-- END: \x7bfilename\x7d -->\n\n",
       "---\n\n"] ∧
    slugOf "Hello, World" = "hello,-world" ∧
    specSlug "Hello, World" = "hello-world" ∧
    slugOf "Hello, World" ≠ specSlug "Hello, World" := by
  refine ⟨by decide, by decide, by decide, by decide⟩

/-- Claim C6 (amended).  The anchor slug is the lowercased title with
spaces replaced by hyphens and exactly the periods and colons removed;
all other punctuation is retained. -/
theorem C6_slug_amended : ∀ title : String, slugOf title = specSlugAmended title := by
  intro title
  unfold slugOf specSlugAmended pyRemoveChar
  congr 1
  rw [List.filter_filter]
  refine List.filter_congr ?_
  intro c _
  by_cases h1 : c = '.' <;> by_cases h2 : c = ':' <;> simp [h1, h2]


/-! ### Reading and decoding claims -/

/-- The file used by the C7 witness. -/
def fsC7 : FileSys := fun p =>
  if p = "Docs/x.md" then some (asciiBytes "hi") else none

/-- The file used by the C10 witness: two bytes that are not valid
UTF-8. -/
def fsC10 : FileSys := fun p =>
  if p = "Docs/y.md" then some [0xFF, 0xFE] else none

/-- Claim C7 (confirmed).  `read_file_content` decodes with UTF-8 first;
on failure it tries `latin-1`, then `windows-1252`, then `ascii`, in that
order, returning the first success; and it can report a decode failure
only if all four decoders fail (in that case the reported exception is the
`TypeError` produced by the malformed `raise UnicodeDecodeError(...)`
statement). -/
theorem C7_encoding_fallback (fs : FileSys) (path : String) (bytes : List PyByte)
    (hfs : fs path = some bytes) :
    (∀ cs, utf8Dec bytes = some cs → read_file_content fs path = .ok ⟨cs⟩) ∧
    (∀ cs, utf8Dec bytes = none → latin1Dec bytes = some cs →
      read_file_content fs path = .ok ⟨cs⟩) ∧
    (∀ cs, utf8Dec bytes = none → latin1Dec bytes = none → cp1252Dec bytes = some cs →
      read_file_content fs path = .ok ⟨cs⟩) ∧
    (∀ cs, utf8Dec bytes = none → latin1Dec bytes = none → cp1252Dec bytes = none →
      asciiDec bytes = some cs → read_file_content fs path = .ok ⟨cs⟩) ∧
    (∀ e, read_file_content fs path = .error e →
      utf8Dec bytes = none ∧ latin1Dec bytes = none ∧ cp1252Dec bytes = none ∧
        asciiDec bytes = none ∧
        e = .typeError "function takes exactly 5 arguments (1 given)") := by
  have hred : read_file_content fs path = decodeBytes bytes := by
    unfold read_file_content
    rw [hfs]
  refine ⟨?_, ?_, ?_, ?_, ?_⟩
  · intro cs h
    rw [hred]
    unfold decodeBytes
    rw [h]
  · intro cs h1 h2
    have htf : tryFallbacks fallbackEncodings bytes = some cs := by
      show (match latin1Dec bytes with
        | some cs => some cs
        | none => tryFallbacks [cp1252Dec, asciiDec] bytes) = some cs
      rw [h2]
    rw [hred]
    unfold decodeBytes
    rw [h1, htf]
  · intro cs h1 h2 h3
    exact absurd h2 (by simp [latin1Dec])
  · intro cs h1 h2 h3 h4
    exact absurd h2 (by simp [latin1Dec])
  · intro e he
    rw [hred] at he
    unfold decodeBytes at he
    cases h1 : utf8Dec bytes with
    | some cs => rw [h1] at he; exact Except.noConfusion he
    | none =>
      rw [h1] at he
      rw [show tryFallbacks fallbackEncodings bytes =
        some (bytes.map (fun b => Char.ofNat b.val)) from rfl] at he
      exact Except.noConfusion he

/-- Witness for C7: the ASCII file decodes as UTF-8 at the first
attempt. -/
theorem C7_encoding_fallback_witness :
    read_file_content fsC7 "Docs/x.md" = .ok "hi" :=
  (C7_encoding_fallback fsC7 "Docs/x.md" (asciiBytes "hi") (by decide)).1
    "hi".data (by decide)

/-- Claim C10 (confirmed).  `latin-1` decodes every byte, so reading an
existing file always succeeds: the all-encodings-failed branch of
`read_file_content` is unreachable, and the only error the function can
return is `FileNotFoundError` for a missing path.  Decoding can therefore
never be the exception that produces a per-file error section. -/
theorem C10_latin1_never_fails (fs : FileSys) (path : String) :
    (∀ bytes, fs path = some bytes → (read_file_content fs path).isOk = true) ∧
    (∀ e, read_file_content fs path = .error e → ∃ m, e = .fileNotFoundError m) := by
  constructor
  · intro bytes hfs
    have hred : read_file_content fs path = decodeBytes bytes := by
      unfold read_file_content
      rw [hfs]
    rw [hred]
    unfold decodeBytes
    cases h1 : utf8Dec bytes with
    | some cs => rfl
    | none =>
      rw [show tryFallbacks fallbackEncodings bytes =
        some (bytes.map (fun b => Char.ofNat b.val)) from rfl]
      rfl
  · intro e he
    cases hfs : fs path with
    | none =>
      unfold read_file_content at he
      rw [hfs] at he
      exact ⟨"File not found: " ++ path, (Except.error.inj he).symm⟩
    | some bytes =>
      have hred : read_file_content fs path = decodeBytes bytes := by
        unfold read_file_content
        rw [hfs]
      rw [hred] at he
      unfold decodeBytes at he
      cases h1 : utf8Dec bytes with
      | some cs => rw [h1] at he; exact Except.noConfusion he
      | none =>
        rw [h1] at he
        rw [show tryFallbacks fallbackEncodings bytes =
          some (bytes.map (fun b => Char.ofNat b.val)) from rfl] at he
        exact Except.noConfusion he

/-- Witness for C10: a file whose two bytes are invalid UTF-8 still reads
successfully (via the `latin-1` fallback). -/
theorem C10_latin1_never_fails_witness :
    (read_file_content fsC10 "Docs/y.md").isOk = true :=
  (C10_latin1_never_fails fsC10 "Docs/y.md").1 [0xFF, 0xFE] (by decide)

/-! ### Section-order claim -/

/-- The seven fragments `combine_markdown_files` appends for one
successfully processed file (the spec-side description of a per-file
section; its error branch is unreachable under the no-read-error
hypothesis of C8). -/
def okSection (fs : FileSys) (fp : String) : List String :=
  match read_file_content fs fp with
  | .ok content =>
    ["<!-- BEGIN: " ++ basename fp ++ " -->\n\n",
     "# " ++ get_file_title fp content ++ "\n\n",
     "*Source: `" ++ basename fp ++ "`*\n\n",
     pyStrip (if "# ".data.isPrefixOf (pyLstrip content).data then
       reSubFirstHeading (pyLstrip content) else content),
     "\n\n",
     "<!-- END: \x7bfilename\x7d -->\n\n",
     "---\n\n"]
  | .error _ => []

theorem foldlM_processOne_ok (fs : FileSys) :
    ∀ (files : List String) (acc : List String) (last : Option String),
      (∀ fp ∈ files, (read_file_content fs fp).isOk = true) →
      ∃ last', files.foldlM (processOne fs) (acc, last) =
        .ok (acc ++ files.flatMap (okSection fs), last') := by
  intro files
  induction files with
  | nil =>
    intro acc last _
    refine ⟨last, ?_⟩
    simp only [List.foldlM_nil, List.flatMap_nil, List.append_nil]
    rfl
  | cons fp rest ih =>
    intro acc last hok
    have h1 : (read_file_content fs fp).isOk = true := hok fp (List.mem_cons_self _ _)
    obtain ⟨content, hc⟩ : ∃ c, read_file_content fs fp = .ok c := by
      cases h : read_file_content fs fp with
      | ok c => exact ⟨c, rfl⟩
      | error e => rw [h] at h1; exact Bool.noConfusion h1
    have hsec : okSection fs fp =
        ["<!-- BEGIN: " ++ basename fp ++ " -->\n\n",
         "# " ++ get_file_title fp content ++ "\n\n",
         "*Source: `" ++ basename fp ++ "`*\n\n",
         pyStrip (if "# ".data.isPrefixOf (pyLstrip content).data then
           reSubFirstHeading (pyLstrip content) else content),
         "\n\n",
         "<!-- END: \x7bfilename\x7d -->\n\n",
         "---\n\n"] := by
      unfold okSection
      rw [hc]
    have hstep : processOne fs (acc, last) fp =
        .ok (acc ++ okSection fs fp, some (basename fp)) := by
      unfold processOne
      rw [hc, hsec]
    obtain ⟨last', hlast⟩ := ih (acc ++ okSection fs fp) (some (basename fp))
      (fun f hf => hok f (List.mem_cons_of_mem _ hf))
    refine ⟨last', ?_⟩
    rw [List.foldlM_cons, hstep]
    show rest.foldlM (processOne fs) (acc ++ okSection fs fp, some (basename fp)) = _
    rw [hlast]
    rw [List.flatMap_cons, ← List.append_assoc]

/-- Claim C8 (confirmed).  When every input file reads successfully (and
the list is nonempty, so that the final progress call does not divide by
zero), the combined fragment list is the header followed by the per-file
sections in exactly the order of the input file list, and each section
begins with the begin marker naming its file.  Together with C5 (discovery
returns a sorted list) this gives: section order equals sorted input file
order. -/
theorem C8_section_order (ts : String) (fs : FileSys) (files : List String)
    (hne : files ≠ [])
    (hok : ∀ fp ∈ files, (read_file_content fs fp).isOk = true) :
    combineFragments ts fs files =
      .ok (combineHeader ts fs files ++ files.flatMap (okSection fs)) ∧
    ∀ fp ∈ files, (okSection fs fp).head? =
      some ("<!-- BEGIN: " ++ basename fp ++ " -->\n\n") := by
  constructor
  · obtain ⟨last', h⟩ := foldlM_processOne_ok fs files (combineHeader ts fs files) none hok
    unfold combineFragments
    rw [h]
    have hemp : files.isEmpty = false := by
      cases files with
      | nil => exact absurd rfl hne
      | cons a l => rfl
    rw [hemp]
    rfl
  · intro fp hfp
    have h1 : (read_file_content fs fp).isOk = true := hok fp hfp
    obtain ⟨content, hc⟩ : ∃ c, read_file_content fs fp = .ok c := by
      cases h : read_file_content fs fp with
      | ok c => exact ⟨c, rfl⟩
      | error e => rw [h] at h1; exact Bool.noConfusion h1
    unfold okSection
    rw [hc]
    rfl

/-- The files used by the C8 witness. -/
def fsC8 : FileSys := fun p =>
  if p = "Docs/a.md" then some (asciiBytes "# A\n\nalpha")
  else if p = "Docs/b.md" then some (asciiBytes "beta") else none

/-- Witness for C8: two files produce the header followed by their two
sections in input order. -/
theorem C8_section_order_witness :
    combineFragments "TS" fsC8 ["Docs/a.md", "Docs/b.md"] =
      .ok (combineHeader "TS" fsC8 ["Docs/a.md", "Docs/b.md"] ++
        (["Docs/a.md", "Docs/b.md"] : List String).flatMap (okSection fsC8)) :=
  (C8_section_order "TS" fsC8 ["Docs/a.md", "Docs/b.md"] (by decide) (by decide)).1

/-! ### Exit-status claim -/

theorem mdFiles_eq (env : MainEnv) (h2 : env.docsDirExists = true) :
    mdFiles env = List.insertionSort (fun a b => strLe a b = true)
      ((env.entries.filter (fun f => ".md".data.isSuffixOf (pyLower f).data)).map
        (pathJoin "Docs")) := by
  unfold mdFiles
  rw [h2]
  rfl

theorem combine_ok_of_reads_ok (ts : String) (fs : FileSys) (files : List String)
    (hne : files ≠ [])
    (hok : ∀ fp ∈ files, (read_file_content fs fp).isOk = true) :
    ∃ s, combine_markdown_files ts fs files = .ok s := by
  obtain ⟨last', h⟩ :=
    foldlM_processOne_ok fs files (combineHeader ts fs files) none hok
  unfold combine_markdown_files combineFragments
  rw [h]
  have hemp : files.isEmpty = false := by
    cases files with
    | nil => exact absurd rfl hne
    | cons a l => rfl
  rw [hemp]
  exact ⟨_, rfl⟩

/-- Claim C9 (confirmed).  The exit status is 0 on success — including the
"no Markdown files" early exit, which writes nothing — and 1 when the
output directory cannot be set up, when discovery fails because the
`Docs` directory is missing, or when the final write fails.  (`main`
returns `None` in the early-exit branch; `sys.exit(None)` is exit status
0.) -/
theorem C9_exit_status (env : MainEnv) :
    (env.outputDirOk = true → env.docsDirExists = true → mdFiles env = [] →
      sysExit (pyMain env) = 0 ∧ (pyMain env).wrote = false) ∧
    (env.outputDirOk = true → env.docsDirExists = true →
      (∀ fp ∈ mdFiles env, (read_file_content env.fs fp).isOk = true) →
      env.writeOk = true → sysExit (pyMain env) = 0) ∧
    (env.outputDirOk = true → env.docsDirExists = false → sysExit (pyMain env) = 1) ∧
    (env.outputDirOk = false → sysExit (pyMain env) = 1) ∧
    (env.outputDirOk = true → env.docsDirExists = true → mdFiles env ≠ [] →
      (∀ fp ∈ mdFiles env, (read_file_content env.fs fp).isOk = true) →
      env.writeOk = false → sysExit (pyMain env) = 1) := by
  refine ⟨?_, ?_, ?_, ?_, ?_⟩
  · intro h1 h2 h3
    have hfind : find_markdown_files env.docsDirExists "Docs" env.entries = .ok [] := by
      rw [show ([] : List String) = mdFiles env from h3.symm, mdFiles_eq env h2, h2]
      rfl
    have hmain : pyMain env = ⟨none, false⟩ := by
      unfold pyMain
      rw [h1, if_pos rfl, hfind]
      rfl
    exact ⟨by rw [hmain]; rfl, by rw [hmain]⟩
  · intro h1 h2 hok hw
    by_cases h3 : mdFiles env = []
    · have hfind : find_markdown_files env.docsDirExists "Docs" env.entries = .ok [] := by
        rw [show ([] : List String) = mdFiles env from h3.symm, mdFiles_eq env h2, h2]
        rfl
      have hmain : pyMain env = ⟨none, false⟩ := by
        unfold pyMain
        rw [h1, if_pos rfl, hfind]
        rfl
      rw [hmain]
      rfl
    · have hfind : find_markdown_files env.docsDirExists "Docs" env.entries =
          .ok (mdFiles env) := by
        rw [mdFiles_eq env h2, h2]
        rfl
      obtain ⟨s, hs⟩ := combine_ok_of_reads_ok env.timestamp env.fs (mdFiles env) h3 hok
      have hemp : (mdFiles env).isEmpty = false := by
        cases hm : mdFiles env with
        | nil => exact absurd hm h3
        | cons a l => rfl
      have hmain : pyMain env = ⟨some 0, true⟩ := by
        unfold pyMain
        rw [h1, if_pos rfl, hfind]
        show (if (mdFiles env).isEmpty then (⟨none, false⟩ : MainResult)
          else match combine_markdown_files env.timestamp env.fs (mdFiles env) with
            | .error _ => ⟨some 1, false⟩
            | .ok _ => if env.writeOk then ⟨some 0, true⟩ else ⟨some 1, false⟩) = _
        rw [hemp, if_neg Bool.false_ne_true, hs, hw, if_pos rfl]
      rw [hmain]
      rfl
  · intro h1 h2f
    have hfind : find_markdown_files env.docsDirExists "Docs" env.entries =
        .error (.fileNotFoundError ("Directory not found: " ++ "Docs")) := by
      rw [h2f]
      rfl
    have hmain : pyMain env = ⟨some 1, false⟩ := by
      unfold pyMain
      rw [h1, if_pos rfl, hfind]
    rw [hmain]
    rfl
  · intro h1f
    have hmain : pyMain env = ⟨some 1, false⟩ := by
      unfold pyMain
      rw [h1f, if_neg Bool.false_ne_true]
    rw [hmain]
    rfl
  · intro h1 h2 h3 hok hw
    have hfind : find_markdown_files env.docsDirExists "Docs" env.entries =
        .ok (mdFiles env) := by
      rw [mdFiles_eq env h2, h2]
      rfl
    obtain ⟨s, hs⟩ := combine_ok_of_reads_ok env.timestamp env.fs (mdFiles env) h3 hok
    have hemp : (mdFiles env).isEmpty = false := by
      cases hm : mdFiles env with
      | nil => exact absurd hm h3
      | cons a l => rfl
    have hmain : pyMain env = ⟨some 1, false⟩ := by
      unfold pyMain
      rw [h1, if_pos rfl, hfind]
      show (if (mdFiles env).isEmpty then (⟨none, false⟩ : MainResult)
        else match combine_markdown_files env.timestamp env.fs (mdFiles env) with
          | .error _ => ⟨some 1, false⟩
          | .ok _ => if env.writeOk then ⟨some 0, true⟩ else ⟨some 1, false⟩) = _
      rw [hemp, if_neg Bool.false_ne_true, hs, hw, if_neg Bool.false_ne_true]
    rw [hmain]
    rfl

/-- The file used by the C9 witness. -/
def fsC9 : FileSys := fun p =>
  if p = "Docs/a.md" then some (asciiBytes "hello") else none

/-- Witness for C9: a successful run exits 0; a run with a missing `Docs`
directory exits 1. -/
theorem C9_exit_status_witness :
    sysExit (pyMain ⟨true, true, ["a.md"], fsC9, true, "TS"⟩) = 0 ∧
    sysExit (pyMain ⟨true, false, ["a.md"], fsC9, true, "TS"⟩) = 1 :=
  ⟨(C9_exit_status ⟨true, true, ["a.md"], fsC9, true, "TS"⟩).2.1 rfl rfl
     (by decide) rfl,
   (C9_exit_status ⟨true, false, ["a.md"], fsC9, true, "TS"⟩).2.2.1 rfl rfl⟩
